import Mathlib

/-!
Verification of `target_csv.py` (grollins/target-csv), a Singer target that
consumes newline-delimited JSON messages (`SCHEMA` / `RECORD` / `STATE`) and
appends records as rows of delimited-text files.

The Python source is shallowly embedded below:
* JSON values become the inductive `Json`; a parsed JSON object (a Python
  dict produced by `json.loads`) becomes an association list
  `Obj = List (String × Json)` with unique keys in insertion order.
* `flatten` is translated function-for-function (including Python's
  `dict(items)` last-value-wins construction, `str(v)` stringification of
  list values via Python `repr` of elements).
* `persist_lines` becomes a state-passing fold `persistLines` over the list
  of parsed messages; the mutable locals (`filename`, `state`, `schemas`,
  `key_properties`, `headers`, `validators`) and the file system become the
  explicit state `St`.  A `raise` becomes `some e : Option PErr` returned
  together with the state reached when the exception fires.
* The CSV module behaviour used by the code is embedded concretely:
  `csv.DictWriter` with `extrasaction=ignore` (`csvRow`, `rowCells`) and
  reading the first row of a file with `csv.reader` (`csvFirstRow`,
  including the universal-newline translation performed by `open(_, "r")`).
* `jsonschema.Draft4Validator.validate` is out of repository scope; it is
  abstracted as the boolean predicate `Config.validate` consulted exactly
  where line 58 of the source consults it.
-/

/-- JSON values as produced by `json.loads` (numbers restricted to integers;
no claim concerns float formatting). -/
inductive Json where
  | null
  | bool (b : Bool)
  | int (n : Int)
  | str (s : String)
  | list (xs : List Json)
  | obj (kvs : List (String × Json))

/-- A parsed JSON object (Python dict): keys unique, insertion order kept. -/
abbrev Obj := List (String × Json)

/-- Python dict lookup `d[k]` / `k in d`, as an option. -/
def lookupS {α : Type} : List (String × α) → String → Option α
  | [], _ => none
  | (k, v) :: rest, key => if k = key then some v else lookupS rest key

/-- Keys of an association list, in order. -/
def keysOf {α : Type} (l : List (String × α)) : List String :=
  l.map Prod.fst

/-- Python dict assignment `d[k] = v`: update in place if the key is
present, else append at the end. -/
def upd {α : Type} (l : List (String × α)) (k : String) (v : α) :
    List (String × α) :=
  if k ∈ keysOf l then
    l.map (fun p => if p.1 = k then (p.1, v) else p)
  else l ++ [(k, v)]

/-- One step of building a Python dict from a list of pairs. -/
def dictStep (d : List (String × Json)) (p : String × Json) : List (String × Json) :=
  upd d p.1 p.2

/-- Python `dict(items)`: first occurrence fixes the position of a key,
the last occurrence fixes its value. -/
def dictOfItems (items : List (String × Json)) : List (String × Json) :=
  items.foldl dictStep []

/-- The apostrophe character, Python's default string-repr quote. -/
def sqChar : Char := Char.ofNat 39

/-- The double-quote character. -/
def dqChar : Char := Char.ofNat 34

/-- Escapes used by Python `repr` on one character of a string, given the
chosen quote character. -/
def pyEscChar (quote : Char) (c : Char) : String :=
  if c = Char.ofNat 92 then String.singleton (Char.ofNat 92) ++ String.singleton (Char.ofNat 92)
  else if c = quote then String.singleton (Char.ofNat 92) ++ String.singleton quote
  else if c = Char.ofNat 10 then String.singleton (Char.ofNat 92) ++ "n"
  else if c = Char.ofNat 13 then String.singleton (Char.ofNat 92) ++ "r"
  else if c = Char.ofNat 9 then String.singleton (Char.ofNat 92) ++ "t"
  else String.singleton c

/-- Python `repr` of a string: single-quoted, switching to double quotes
when the text holds a single quote but no double quote. -/
def pyReprStr (s : String) : String :=
  let quote := if s.data.contains sqChar ∧ ¬ s.data.contains dqChar then dqChar else sqChar
  String.singleton quote ++ String.join (s.data.map (pyEscChar quote)) ++ String.singleton quote

mutual
/-- Python `repr` of a JSON-shaped value. -/
def pyRepr : Json → String
  | .null => "None"
  | .bool true => "True"
  | .bool false => "False"
  | .int n => toString n
  | .str s => pyReprStr s
  | .list xs => "[" ++ pyReprList xs ++ "]"
  | .obj kvs => "\x7b" ++ pyReprObj kvs ++ "\x7d"

/-- Comma-space join of the element reprs of a Python list. -/
def pyReprList : List Json → String
  | [] => ""
  | [x] => pyRepr x
  | x :: y :: xs => pyRepr x ++ ", " ++ pyReprList (y :: xs)

/-- dict body of a Python repr. -/
def pyReprObj : List (String × Json) → String
  | [] => ""
  | [(k, v)] => pyReprStr k ++ ": " ++ pyRepr v
  | (k, v) :: p :: rest => pyReprStr k ++ ": " ++ pyRepr v ++ ", " ++ pyReprObj (p :: rest)
end

/-- Python `str` of a JSON-shaped value (`str` = identity on strings,
`repr` otherwise). -/
def pyStr : Json → String
  | .str s => s
  | v => pyRepr v

/-- Line 26: `new_key = parent_key + sep + k if parent_key else k`. -/
def joinKey (parent sep k : String) : String :=
  if parent = "" then k else parent ++ sep ++ k

/-- The loop body of `flatten` (lines 24-30): builds the `items` list for
one dict.  A mapping value is recursed into (the recursive `flatten` result
is a dict — `dictOfItems` of the collected items — of which `.items()` is
spliced in); a list value is stringified by `str`; anything else is kept. -/
def flattenItems : Obj → String → String → List (String × Json)
  | [], _, _ => []
  | (k, v) :: rest, parent, sep =>
    (match v with
     | .obj m => dictOfItems (flattenItems m (joinKey parent sep k) sep)
     | .list xs => [(joinKey parent sep k, .str (pyStr (.list xs)))]
     | v => [(joinKey parent sep k, v)]) ++ flattenItems rest parent sep

/-- The function `flatten` of `target_csv.py` lines 23-31, with the parent
key defaulting to the empty string and the separator defaulting to `__`:
the collected items, turned back into a dict. -/
def flatten (d : Obj) (parent : String := "") (sep : String := "__") : Obj :=
  dictOfItems (flattenItems d parent sep)

/-- The exceptions `persist_lines` can raise, one constructor per `raise`
site (plus raw `KeyError` from unchecked dict subscripts). -/
inductive PErr where
  | missingType           -- line 48
  | missingStream         -- lines 52-53 and 95-96
  | schemaNotSeen         -- lines 54-55
  | keyError (key : String) -- `o[key]` with `key` absent (lines 58, 92, 98)
  | validationError       -- raised inside `validate` at line 58
  | keyPropertiesRequired -- lines 100-101
  | unknownType           -- lines 103-105
  | typeError             -- a value of the wrong runtime type is used
deriving Repr, DecidableEq

/-- Configuration of one run.  `Draft4Validator.validate` is outside this
repository; the model takes it as an arbitrary boolean predicate
(schema, record) → accepted?. -/
structure Config where
  delimiter : Char
  quotechar : Char
  validate : Json → Json → Bool

/-- The mutable locals of `persist_lines` (lines 33-38) plus the file
system, which the loop reads and appends to. -/
structure St where
  filename : Option String                 -- the reassignable parameter
  state : Json                             -- line 34; Python None is JSON null
  schemas : List (String × Json)           -- line 35
  key_properties : List (String × Json)    -- line 36
  headers : List (String × List String)    -- line 37
  validators : List (String × Json)        -- line 38; a Draft4Validator is
                                           -- determined by its schema
  fs : List (String × String)              -- file name ↦ file content

/-- Line 65: `file_is_empty = (not os.path.isfile(filename)) or
os.stat(filename).st_size == 0`. -/
def fileIsEmpty (fs : List (String × String)) (filename : String) : Bool :=
  match lookupS fs filename with
  | none => true
  | some content => content = ""

/-- One CSV field as written by the `csv` module with QUOTE_MINIMAL: quoted
(with the quote character doubled) when it holds the delimiter, the quote
character or a newline character. -/
def csvField (delim quote : Char) (s : String) : String :=
  if s.data.contains delim ∨ s.data.contains quote ∨
     s.data.contains (Char.ofNat 10) ∨ s.data.contains (Char.ofNat 13) then
    String.singleton quote ++
      String.join (s.data.map (fun c =>
        if c = quote then String.singleton quote ++ String.singleton quote
        else String.singleton c)) ++
      String.singleton quote
  else s

/-- One CSV row (the `csv` module default line terminator is CRLF). -/
def csvRow (delim quote : Char) (cells : List String) : String :=
  String.intercalate (String.singleton delim) (cells.map (csvField delim quote)) ++ "\r\n"

/-- The cells of `DictWriter.writerow(flattened_record)` (lines 80-88):
each header column takes the record's value stringified by `str`, or the
default restval `""` when absent; record fields outside the header are
dropped (`extrasaction="ignore"`). -/
def rowCells (flat : Obj) (header : List String) : List String :=
  header.map (fun h =>
    match lookupS flat h with
    | some v => pyStr v
    | none => "")

/-- Scanner states of the `csv.reader` field parser. -/
inductive CsvScan where
  | atFieldStart
  | inField
  | inQuoted
  | afterQuote

/-- Field scanner of `csv.reader` (default non-strict dialect) for one row:
stops at the first newline outside quotes; a doubled quote inside a quoted
field is a literal quote; text after a closing quote rejoins the field. -/
def csvScan (delim quote : Char) : List Char → CsvScan → List Char → List String → List String
  | [], _, cur, fields => fields ++ [String.mk cur.reverse]
  | c :: cs, .atFieldStart, cur, fields =>
    if c = quote then csvScan delim quote cs .inQuoted cur fields
    else if c = delim then csvScan delim quote cs .atFieldStart [] (fields ++ [String.mk cur.reverse])
    else if c = Char.ofNat 10 then fields ++ [String.mk cur.reverse]
    else csvScan delim quote cs .inField (c :: cur) fields
  | c :: cs, .inField, cur, fields =>
    if c = delim then csvScan delim quote cs .atFieldStart [] (fields ++ [String.mk cur.reverse])
    else if c = Char.ofNat 10 then fields ++ [String.mk cur.reverse]
    else csvScan delim quote cs .inField (c :: cur) fields
  | c :: cs, .inQuoted, cur, fields =>
    if c = quote then csvScan delim quote cs .afterQuote cur fields
    else csvScan delim quote cs .inQuoted (c :: cur) fields
  | c :: cs, .afterQuote, cur, fields =>
    if c = quote then csvScan delim quote cs .inQuoted (c :: cur) fields
    else if c = delim then csvScan delim quote cs .atFieldStart [] (fields ++ [String.mk cur.reverse])
    else if c = Char.ofNat 10 then fields ++ [String.mk cur.reverse]
    else csvScan delim quote cs .inField (c :: cur) fields

/-- The universal-newline translation of `open(filename, "r")`, over the
character list: CRLF and lone CR both become LF. -/
def translateNL : List Char → List Char
  | [] => []
  | [c] => if c = Char.ofNat 13 then [Char.ofNat 10] else [c]
  | c :: c₂ :: cs =>
    if c = Char.ofNat 13 then
      if c₂ = Char.ofNat 10 then Char.ofNat 10 :: translateNL cs
      else Char.ofNat 10 :: translateNL (c₂ :: cs)
    else c :: translateNL (c₂ :: cs)

/-- The universal-newline translation of `open(filename, "r")`. -/
def translateNewlines (s : String) : String :=
  String.mk (translateNL s.data)

/-- Reading `first_line = next(reader)` on the freshly opened file
(lines 70-74):
the first row of the content, delimiter/quote-aware; a leading blank line
(and an empty file) yields the empty row. -/
def csvFirstRow (delim quote : Char) (content : String) : List String :=
  match (translateNewlines content).data with
  | [] => []
  | c :: cs =>
    if c = Char.ofNat 10 then []
    else csvScan delim quote (c :: cs) .atFieldStart [] []

/-- Lines 60-63: the destination filename — the explicit one when the
`filename` local is set, else `<stream>.csv`; the result is written back
into the `filename` local. -/
def resolveFilename (fn : Option String) (stream : String) : String :=
  match fn with
  | some f => f
  | none => stream ++ ".csv"

/-- The `t == "RECORD"` branch (lines 51-90).  Stream names are modelled
as strings (they are strings in the Singer protocol and in every message
this development evaluates); a message whose `stream` or `record` value
has a different runtime type takes the `typeError` branch. -/
def handleRecord (cfg : Config) (st : St) (o : Obj) : St × Option PErr :=
  match lookupS o "stream" with
  | none => (st, some .missingStream)
  | some (.str stream) =>
    match lookupS st.schemas stream with
    | none => (st, some .schemaNotSeen)
    | some _schema =>
      match lookupS st.validators stream with
      | none => (st, some (.keyError stream))
      | some vschema =>
        match lookupS o "record" with
        | none => (st, some (.keyError "record"))
        | some r =>
          if cfg.validate vschema r then
            let filename := resolveFilename st.filename stream
            let st1 : St := { st with filename := some filename }
            let empty := fileIsEmpty st.fs filename
            match r with
            | .obj rkvs =>
              let flat := flatten rkvs
              let header :=
                if lookupS st1.headers stream = none ∧ empty = false then
                  let first := csvFirstRow cfg.delimiter cfg.quotechar
                                 ((lookupS st1.fs filename).getD "")
                  if first ≠ [] then first else keysOf flat
                else keysOf flat
              let st2 : St := { st1 with headers := upd st1.headers stream header }
              let content := (lookupS st2.fs filename).getD ""
              let newContent := content ++
                (if empty then csvRow cfg.delimiter cfg.quotechar header else "") ++
                csvRow cfg.delimiter cfg.quotechar (rowCells flat header)
              ({ st2 with fs := upd st2.fs filename newContent, state := Json.null }, none)
            | _ => (st1, some .typeError)
          else (st, some .validationError)
  | some _ => (st, some .typeError)

/-- The `t == "STATE"` branch (lines 91-93): `o["value"]` is read first for
the debug log, so a missing `value` raises `KeyError` before any update. -/
def handleState (st : St) (o : Obj) : St × Option PErr :=
  match lookupS o "value" with
  | none => (st, some (.keyError "value"))
  | some v => ({ st with state := v }, none)

/-- The `t == "SCHEMA"` branch (lines 94-102): schema and validator are
registered before `key_properties` is checked. -/
def handleSchema (st : St) (o : Obj) : St × Option PErr :=
  match lookupS o "stream" with
  | none => (st, some .missingStream)
  | some (.str stream) =>
    match lookupS o "schema" with
    | none => (st, some (.keyError "schema"))
    | some schema =>
      let st1 : St := { st with schemas := upd st.schemas stream schema,
                                validators := upd st.validators stream schema }
      match lookupS o "key_properties" with
      | none => (st1, some .keyPropertiesRequired)
      | some kp =>
        ({ st1 with key_properties := upd st1.key_properties stream kp }, none)
  | some _ => (st, some .typeError)

/-- Dispatch on `o["type"]` (lines 47-105) for one already-parsed line. -/
def processLine (cfg : Config) (st : St) (o : Obj) : St × Option PErr :=
  match lookupS o "type" with
  | none => (st, some .missingType)
  | some (.str "RECORD") => handleRecord cfg st o
  | some (.str "STATE") => handleState st o
  | some (.str "SCHEMA") => handleSchema st o
  | some _ => (st, some .unknownType)

/-- The loop of `persist_lines(filename, delimiter, quotechar, lines)`
over the parsed
lines: processes messages in order, stopping at the first exception, and
(on success) ends with `st.state` as the returned value (line 107). -/
def persistLines (cfg : Config) (st : St) : List Obj → St × Option PErr
  | [] => (st, none)
  | o :: rest =>
    match processLine cfg st o with
    | (st1, some e) => (st1, some e)
    | (st1, none) => persistLines cfg st1 rest

/-- The initial state of one run: no file touched yet beyond the initial
file system, `state = None`, empty maps (lines 33-38). -/
def initSt (filename : Option String) (fs : List (String × String)) : St :=
  { filename := filename, state := Json.null, schemas := [], key_properties := [],
    headers := [], validators := [], fs := fs }

/-! ### Reference flattening (from the specification text, §4.2) -/

/-- Reference flattening, following the words of the spec: depth-first
traversal; an object value is recursed into, the parent and child key
joined by the fixed two-character separator `__`, and the recursive
entries spliced in at this level; a list value is replaced by its string
representation; any other value is stored unchanged.  An empty object
value contributes no entries at all. -/
def flattenRefItems : Obj → String → List (String × Json)
  | [], _ => []
  | (k, v) :: rest, parent =>
    (match v with
     | .obj m => flattenRefItems m (joinKey parent "__" k)
     | .list xs => [(joinKey parent "__" k, .str (pyStr (.list xs)))]
     | v => [(joinKey parent "__" k, v)]) ++ flattenRefItems rest parent

/-- The reference flat object: the spliced entries as a JSON object
(a later duplicate joined name overwrites an earlier one). -/
def flattenRef (d : Obj) : Obj :=
  dictOfItems (flattenRefItems d "")

/-- A JSON value that is neither an object nor a list. -/
def isScalar : Json → Bool
  | .obj _ => false
  | .list _ => false
  | _ => true

/-- Does some field of the object hold a nested object value? -/
def hasObjValue (d : Obj) : Bool :=
  d.any (fun p => match p.2 with | .obj _ => true | _ => false)

/-- A well-formed `SCHEMA` message for stream `s` with an empty schema. -/
def schemaMsg (s : String) : Obj :=
  [("type", .str "SCHEMA"), ("stream", .str s), ("schema", .obj []),
   ("key_properties", .list [])]

/-- A `RECORD` message for stream `s` carrying the object `r`. -/
def recordMsg (s : String) (r : Obj) : Obj :=
  [("type", .str "RECORD"), ("stream", .str s), ("record", .obj r)]

/-- A `STATE` message carrying `v`. -/
def stateMsg (v : Json) : Obj :=
  [("type", .str "STATE"), ("value", v)]

/-- The default configuration: delimiter `,`, quote `"`, and a validator
that accepts everything. -/
def cfg0 : Config :=
  ⟨Char.ofNat 44, Char.ofNat 34, fun _ _ => true⟩

/-- A mid-run state in which stream `s` is registered (empty schema), its
header list is `hdr`, and the output file `f` has content `c`. -/
def stMid (s : String) (hdr : List String) (f c : String) : St :=
  { filename := some f, state := Json.null,
    schemas := [(s, .obj [])], key_properties := [(s, .list [])],
    headers := [(s, hdr)], validators := [(s, .obj [])],
    fs := [(f, c)] }

/-- A pre-run state in which stream `s` is registered but no header is
established yet, and file `f` already exists with content `c`. -/
def stPre (s f c : String) : St :=
  { filename := none, state := Json.null, schemas := [(s, .obj [])],
    key_properties := [(s, .list [])], headers := [], validators := [(s, .obj [])],
    fs := [(f, c)] }

/-- Is the parsed message a `RECORD` message? -/
def isRecordMsg (o : Obj) : Bool :=
  match lookupS o "type" with
  | some (.str "RECORD") => true
  | _ => false

/-- Is the parsed message a `STATE` message? -/
def isStateMsg (o : Obj) : Bool :=
  match lookupS o "type" with
  | some (.str "STATE") => true
  | _ => false

/-- The checkpoint mandated by the claim, relative to a starting value:
the value carried by the most recent `STATE` message with no `RECORD`
after it; null if a `RECORD` is the last such message; the starting value
when the input has neither. -/
def checkpointFrom (s0 : Json) (msgs : List Obj) : Json :=
  match msgs.reverse.find? (fun o => isRecordMsg o || isStateMsg o) with
  | some o => if isRecordMsg o then Json.null
              else (lookupS o "value").getD Json.null
  | none => s0

/-- The checkpoint mandated by the claim for a whole run: the value of the
most recent `STATE` message that has no `RECORD` after it, null if there
is no such `STATE` message. -/
def finalCheckpoint (msgs : List Obj) : Json :=
  checkpointFrom Json.null msgs

/-! ### Dictionary lemmas -/

theorem upd_of_mem {α : Type} {l : List (String × α)} {k : String} (v : α)
    (h : k ∈ keysOf l) :
    upd l k v = l.map (fun p => if p.1 = k then (p.1, v) else p) := by
  unfold upd
  simp [h]

theorem upd_of_not_mem {α : Type} {l : List (String × α)} {k : String} (v : α)
    (h : k ∉ keysOf l) : upd l k v = l ++ [(k, v)] := by
  unfold upd
  simp [h]

theorem keysOf_map_fst {α β : Type} (f : String × α → String × β)
    (hf : ∀ p, (f p).1 = p.1) (l : List (String × α)) :
    keysOf (l.map f) = keysOf l := by
  simp only [keysOf, List.map_map]
  apply List.map_congr_left
  intro p _
  exact hf p

theorem map_upd_id {α : Type} {l : List (String × α)} {k : String} {v : α}
    (h : ∀ p ∈ l, p.1 ≠ k) :
    List.map (fun p => if p.1 = k then (p.1, v) else p) l = l := by
  conv_rhs => rw [← List.map_id l]
  apply List.map_congr_left
  intro p hp
  simp [h p hp]

theorem keysOf_upd {α : Type} (l : List (String × α)) (k : String) (v : α) :
    keysOf (upd l k v) = if k ∈ keysOf l then keysOf l else keysOf l ++ [k] := by
  by_cases h : k ∈ keysOf l
  · rw [upd_of_mem v h, if_pos h, keysOf_map_fst]
    intro p
    by_cases hp : p.1 = k <;> simp [hp]
  · rw [upd_of_not_mem v h, if_neg h]
    simp [keysOf]

theorem mem_keysOf_upd {α : Type} (l : List (String × α)) (k : String) (v : α) :
    k ∈ keysOf (upd l k v) := by
  rw [keysOf_upd]
  split <;> simp_all

theorem mem_keysOf_upd_of_mem {α : Type} {l : List (String × α)} {k' : String}
    (k : String) (v : α) (h : k' ∈ keysOf l) : k' ∈ keysOf (upd l k v) := by
  rw [keysOf_upd]
  split <;> simp_all

theorem not_mem_of_not_mem_keysOf {α : Type} {l : List (String × α)} {k : String}
    (h : k ∉ keysOf l) : ∀ p ∈ l, p.1 ≠ k := by
  intro p hp hk
  exact h (hk ▸ List.mem_map.mpr ⟨p, hp, rfl⟩)

theorem upd_cons_ne {α : Type} (l : List (String × α)) {k₁ k : String} (w : α) (v : α)
    (h : k₁ ≠ k) : upd ((k₁, w) :: l) k v = (k₁, w) :: upd l k v := by
  have hmem : k ∈ keysOf ((k₁, w) :: l) ↔ k ∈ keysOf l := by
    simp [keysOf, Ne.symm h]
  by_cases hk : k ∈ keysOf l
  · rw [upd_of_mem v (hmem.mpr hk), upd_of_mem v hk]
    simp [h]
  · rw [upd_of_not_mem v (fun hc => hk (hmem.mp hc)), upd_of_not_mem v hk]
    simp

theorem upd_upd_same {α : Type} (l : List (String × α)) (k : String) (w v : α) :
    upd (upd l k w) k v = upd l k v := by
  by_cases h : k ∈ keysOf l
  · have h2 : k ∈ keysOf (upd l k w) := mem_keysOf_upd l k w
    rw [upd_of_mem v h2, upd_of_mem w h, upd_of_mem v h, List.map_map]
    apply List.map_congr_left
    intro p _
    by_cases hp : p.1 = k <;> simp [hp]
  · have h2 : k ∈ keysOf (upd l k w) := mem_keysOf_upd l k w
    rw [upd_of_mem v h2, upd_of_not_mem w h, upd_of_not_mem v h, List.map_append]
    rw [map_upd_id (not_mem_of_not_mem_keysOf h)]
    simp

@[simp] theorem keysOf_nil {α : Type} : keysOf ([] : List (String × α)) = [] := rfl

@[simp] theorem keysOf_cons {α : Type} (p : String × α) (l : List (String × α)) :
    keysOf (p :: l) = p.1 :: keysOf l := rfl

theorem upd_swap_mem {d : List (String × Json)} {k k₁ : String} (v u : Json)
    (hk : k ∈ keysOf d) (hne : k₁ ≠ k) :
    upd (upd d k v) k₁ u = upd (upd d k₁ u) k v := by
  by_cases h₁ : k₁ ∈ keysOf d
  · have hkv : k₁ ∈ keysOf (upd d k v) := mem_keysOf_upd_of_mem k v h₁
    have hku : k ∈ keysOf (upd d k₁ u) := mem_keysOf_upd_of_mem k₁ u hk
    rw [upd_of_mem u hkv, upd_of_mem v hk, upd_of_mem v hku, upd_of_mem u h₁,
        List.map_map, List.map_map]
    apply List.map_congr_left
    intro p _
    obtain ⟨a, b⟩ := p
    by_cases ha : a = k
    · subst ha
      simp [hne, Ne.symm hne]
    · by_cases ha₁ : a = k₁
      · subst ha₁
        simp [ha, Ne.symm hne]
      · simp [ha, ha₁]
  · have hkv : k₁ ∉ keysOf (upd d k v) := by
      rw [keysOf_upd, if_pos hk]
      exact h₁
    have hku : k ∈ keysOf (d ++ [(k₁, u)]) := by
      simp [keysOf, List.mem_map] at hk ⊢
      tauto
    rw [upd_of_not_mem u hkv, upd_of_mem v hk, upd_of_not_mem u h₁,
        upd_of_mem v hku, List.map_append]
    simp [hne, Ne.symm hne]

theorem foldl_dictStep_upd_mem (t : List (String × Json)) :
    ∀ (d : List (String × Json)) (k : String) (v : Json),
      k ∉ keysOf t → k ∈ keysOf d →
      List.foldl dictStep (upd d k v) t = upd (List.foldl dictStep d t) k v := by
  induction t with
  | nil => intro d k v _ _; rfl
  | cons p t ih =>
    intro d k v hkt hkd
    obtain ⟨k₁, u⟩ := p
    rw [keysOf_cons, List.mem_cons] at hkt
    push_neg at hkt
    obtain ⟨hne, hkt'⟩ := hkt
    simp only [List.foldl_cons, dictStep]
    rw [upd_swap_mem v u hkd (Ne.symm hne),
        ih (upd d k₁ u) k v hkt' (mem_keysOf_upd_of_mem k₁ u hkd)]

theorem foldl_dictStep_upd_right {e : List (String × Json)} (he : (keysOf e).Nodup) :
    ∀ (d : List (String × Json)) (k : String) (v : Json),
      List.foldl dictStep d (upd e k v) = upd (List.foldl dictStep d e) k v := by
  induction e with
  | nil =>
    intro d k v
    rw [upd_of_not_mem v (by simp)]
    rfl
  | cons p t ih =>
    intro d k v
    obtain ⟨k₁, w⟩ := p
    rw [keysOf_cons] at he
    obtain ⟨hk₁t, ht⟩ := List.nodup_cons.mp he
    by_cases hk : k₁ = k
    · subst hk
      have hupd : upd ((k₁, w) :: t) k₁ v = (k₁, v) :: t := by
        rw [upd_of_mem v (by simp)]
        simp only [List.map_cons]
        rw [map_upd_id (not_mem_of_not_mem_keysOf hk₁t)]
        simp
      rw [hupd]
      simp only [List.foldl_cons, dictStep]
      rw [← upd_upd_same d k₁ w v,
          foldl_dictStep_upd_mem t (upd d k₁ w) k₁ v hk₁t (mem_keysOf_upd d k₁ w)]
    · rw [upd_cons_ne t w v hk]
      simp only [List.foldl_cons, dictStep]
      exact ih ht (upd d k₁ w) k v

theorem keysOf_foldl_nodup (xs : List (String × Json)) :
    ∀ d : List (String × Json), (keysOf d).Nodup →
      (keysOf (List.foldl dictStep d xs)).Nodup := by
  induction xs with
  | nil => intro d hd; exact hd
  | cons p t ih =>
    intro d hd
    simp only [List.foldl_cons, dictStep]
    apply ih
    rw [keysOf_upd]
    split
    · exact hd
    · refine List.Nodup.append hd (List.nodup_singleton p.1) ?_
      intro a ha hb
      simp only [List.mem_singleton] at hb
      subst hb
      simp_all

theorem keysOf_dictOfItems_nodup (xs : List (String × Json)) :
    (keysOf (dictOfItems xs)).Nodup :=
  keysOf_foldl_nodup xs [] (by simp)

theorem foldl_dictStep_dictOfItems (xs : List (String × Json)) :
    ∀ d : List (String × Json),
      List.foldl dictStep d (dictOfItems xs) = List.foldl dictStep d xs := by
  induction xs using List.reverseRecOn with
  | nil => intro d; rfl
  | append_singleton xs p ih =>
    intro d
    have hstep : dictOfItems (xs ++ [p]) = upd (dictOfItems xs) p.1 p.2 := by
      simp [dictOfItems, List.foldl_append, dictStep]
    rw [hstep, foldl_dictStep_upd_right (keysOf_dictOfItems_nodup xs), ih d,
        List.foldl_append]
    rfl

theorem dictOfItems_absorb (xs ys : List (String × Json)) :
    dictOfItems (dictOfItems xs ++ ys) = dictOfItems (xs ++ ys) := by
  unfold dictOfItems
  rw [List.foldl_append, List.foldl_append]
  congr 1
  exact foldl_dictStep_dictOfItems xs []



theorem foldl_flattenItems (d : Obj) (parent : String) :
    ∀ d₀, List.foldl dictStep d₀ (flattenItems d parent "__") =
      List.foldl dictStep d₀ (flattenRefItems d parent) := by
  induction d, parent using flattenRefItems.induct with
  | case1 parent =>
    intro d₀
    simp only [flattenItems, flattenRefItems]
  | case2 k v rest parent hm ihrest =>
    intro d₀
    cases v with
    | obj m =>
      dsimp only at hm
      simp only [flattenItems, flattenRefItems, List.foldl_append]
      rw [foldl_dictStep_dictOfItems, hm, ihrest]
    | list xs =>
      simp only [flattenItems, flattenRefItems, List.foldl_append]
      rw [ihrest]
    | null =>
      simp only [flattenItems, flattenRefItems, List.foldl_append]
      rw [ihrest]
    | bool b =>
      simp only [flattenItems, flattenRefItems, List.foldl_append]
      rw [ihrest]
    | int n =>
      simp only [flattenItems, flattenRefItems, List.foldl_append]
      rw [ihrest]
    | str t =>
      simp only [flattenItems, flattenRefItems, List.foldl_append]
      rw [ihrest]

@[simp] theorem keysOf_append {α : Type} (l₁ l₂ : List (String × α)) :
    keysOf (l₁ ++ l₂) = keysOf l₁ ++ keysOf l₂ := by
  simp [keysOf]

theorem foldl_dictStep_of_nodup (l : List (String × Json)) :
    ∀ d, (keysOf d ++ keysOf l).Nodup → List.foldl dictStep d l = d ++ l := by
  induction l with
  | nil => intro d _; simp
  | cons p t ih =>
    intro d h
    obtain ⟨k, v⟩ := p
    rw [keysOf_cons] at h
    have hk : k ∉ keysOf d := by
      rw [List.nodup_append] at h
      exact fun hc => h.2.2 hc (List.mem_cons_self k (keysOf t))
    simp only [List.foldl_cons, dictStep]
    rw [upd_of_not_mem v hk]
    have h' : (keysOf (d ++ [(k, v)]) ++ keysOf t).Nodup := by
      rw [keysOf_append]
      simpa [← List.append_cons] using h
    rw [ih (d ++ [(k, v)]) h']
    simp

theorem dictOfItems_of_nodup {l : List (String × Json)} (h : (keysOf l).Nodup) :
    dictOfItems l = l := by
  have := foldl_dictStep_of_nodup l [] (by simpa using h)
  simpa [dictOfItems] using this



theorem flattenItems_scalar (d : Obj) (sep : String)
    (h : ∀ p ∈ d, isScalar p.2 = true) : flattenItems d "" sep = d := by
  induction d with
  | nil => simp [flattenItems]
  | cons p t ih =>
    obtain ⟨k, v⟩ := p
    have hv : isScalar v = true := h (k, v) (List.mem_cons_self _ _)
    have ht : ∀ q ∈ t, isScalar q.2 = true := fun q hq => h q (List.mem_cons_of_mem _ hq)
    cases v <;> simp_all [flattenItems, joinKey, isScalar] <;> exact ih ht

/-- C6: `flatten` coincides with the reference recursive definition read
off the specification: object values are recursed into with parent and
child key joined by `__`, list values are replaced by their string
representation, scalar values are stored unchanged, and an empty object
value produces no entry at all; in particular `{"tags": [1, 2]}` flattens
to `{"tags": "[1, 2]"}` and a field whose value is `{}` vanishes. -/
theorem c6_flatten_eq_reference :
    (∀ d : Obj, flatten d = flattenRef d) ∧
    flatten [("tags", Json.list [Json.int 1, Json.int 2])] =
      [("tags", Json.str "[1, 2]")] ∧
    flatten [("a", Json.obj [("b", Json.int 1), ("c", Json.int 2)]), ("e", Json.obj [])] =
      [("a__b", Json.int 1), ("a__c", Json.int 2)] := by
  refine ⟨fun d => ?_, ?_, ?_⟩
  · show dictOfItems (flattenItems d "" "__") = dictOfItems (flattenRefItems d "")
    unfold dictOfItems
    exact foldl_flattenItems d "" []
  · simp [flatten, flattenItems, dictOfItems, dictStep, upd, keysOf, joinKey,
      pyStr, pyRepr, pyReprList]
    decide
  · simp [flatten, flattenItems, dictOfItems, dictStep, upd, keysOf, joinKey,
      pyStr, pyRepr, pyReprList]

/-- C8 counterexample: `{"a": [1]}` has no nested object value, yet
`flatten` does not return it unchanged (the list is stringified). -/
theorem c8_counterexample :
    hasObjValue [("a", Json.list [Json.int 1])] = false ∧
    flatten [("a", Json.list [Json.int 1])] ≠ [("a", Json.list [Json.int 1])] := by
  constructor
  · rfl
  · intro h
    simp [flatten, flattenItems, dictOfItems, dictStep, upd, keysOf, joinKey,
      pyStr, pyRepr, pyReprList] at h

/-- C8 (amended): on an already-flat object whose values are plain scalars
(no object values and no list values), `flatten` is the identity. -/
theorem c8_flatten_id_of_flat_scalar (d : Obj) (h1 : (keysOf d).Nodup)
    (h2 : ∀ p ∈ d, isScalar p.2 = true) : flatten d = d := by
  show dictOfItems (flattenItems d "" "__") = d
  rw [flattenItems_scalar d "__" h2]
  exact dictOfItems_of_nodup h1

/-- Witness for the amended C8 at a concrete flat record. -/
theorem c8_flatten_id_of_flat_scalar_witness :
    ((keysOf [("a", Json.int 1), ("b", Json.str "x")]).Nodup ∧
      (∀ p ∈ [("a", Json.int 1), ("b", Json.str "x")], isScalar p.2 = true)) ∧
    flatten [("a", Json.int 1), ("b", Json.str "x")] =
      [("a", Json.int 1), ("b", Json.str "x")] :=
  ⟨⟨by decide, by decide⟩, c8_flatten_id_of_flat_scalar _ (by decide) (by decide)⟩

theorem lookupS_upd_self {α : Type} (l : List (String × α)) (k : String) (v : α) :
    lookupS (upd l k v) k = some v := by
  induction l with
  | nil =>
    rw [upd_of_not_mem v (by simp)]
    simp [lookupS]
  | cons p t ih =>
    obtain ⟨a, b⟩ := p
    by_cases ha : a = k
    · subst ha
      rw [upd_of_mem v (by simp), List.map_cons]
      rw [show (if ((a, b).1 = a) then ((a, b).1, v) else (a, b)) = (a, v) from by simp]
      simp [lookupS]
    · rw [upd_cons_ne t b v ha]
      simp [lookupS, ha, ih]



/-- C7: a `RECORD` message whose stream has no registered schema makes the
dispatcher fail with the protocol error of lines 54-55 and leaves the
whole state — in particular the file system — untouched: no row and no
header is written. -/
theorem c7_record_before_schema (cfg : Config) (st : St) (o : Obj) (s : String)
    (htype : lookupS o "type" = some (Json.str "RECORD"))
    (hstream : lookupS o "stream" = some (Json.str s))
    (hschema : lookupS st.schemas s = none) :
    processLine cfg st o = (st, some PErr.schemaNotSeen) := by
  simp [processLine, htype, handleRecord, hstream, hschema]

/-- Witness for C7 at a concrete record with no preceding schema. -/
theorem c7_record_before_schema_witness :
    (lookupS (recordMsg "u" [("x", Json.int 1)]) "type" = some (Json.str "RECORD") ∧
      lookupS (recordMsg "u" [("x", Json.int 1)]) "stream" = some (Json.str "u") ∧
      lookupS (initSt none []).schemas "u" = none) ∧
    processLine cfg0 (initSt none []) (recordMsg "u" [("x", Json.int 1)]) =
      (initSt none [], some PErr.schemaNotSeen) :=
  ⟨⟨rfl, rfl, rfl⟩, c7_record_before_schema cfg0 (initSt none []) _ "u" rfl rfl rfl⟩

/-- C9: a `RECORD` message with a registered stream but no `record` field
fails with a raw `KeyError` from `o["record"]` at the validation step
(line 58) — not with one of the shaped protocol errors — and the state is
unchanged. -/
theorem c9_missing_record_key (cfg : Config) (st : St) (o : Obj) (s : String)
    (sch vsch : Json)
    (htype : lookupS o "type" = some (Json.str "RECORD"))
    (hstream : lookupS o "stream" = some (Json.str s))
    (hs : lookupS st.schemas s = some sch)
    (hv : lookupS st.validators s = some vsch)
    (hrec : lookupS o "record" = none) :
    processLine cfg st o = (st, some (PErr.keyError "record")) := by
  simp [processLine, htype, handleRecord, hstream, hs, hv, hrec]

/-- Witness for C9 at a concrete record message lacking `record`. -/
theorem c9_missing_record_key_witness :
    (lookupS [("type", Json.str "RECORD"), ("stream", Json.str "s")] "record" = none) ∧
    processLine cfg0 (stMid "s" ["a"] "s.csv" "")
      [("type", Json.str "RECORD"), ("stream", Json.str "s")] =
      (stMid "s" ["a"] "s.csv" "", some (PErr.keyError "record")) :=
  ⟨rfl, c9_missing_record_key cfg0 (stMid "s" ["a"] "s.csv" "") _ "s"
    (.obj []) (.obj []) rfl rfl rfl rfl rfl⟩

/-- C10: a `SCHEMA` message with `stream` and `schema` but without
`key_properties` fails the run, but only after the stream's schema and
validator have been registered into the in-process state (lines 98-99
precede the check of lines 100-101). -/
theorem c10_schema_registered_before_failure (cfg : Config) (st : St) (o : Obj)
    (s : String) (sch : Json)
    (htype : lookupS o "type" = some (Json.str "SCHEMA"))
    (hstream : lookupS o "stream" = some (Json.str s))
    (hschema : lookupS o "schema" = some sch)
    (hkp : lookupS o "key_properties" = none) :
    processLine cfg st o =
      ({ st with schemas := upd st.schemas s sch,
                 validators := upd st.validators s sch },
        some PErr.keyPropertiesRequired) ∧
    lookupS (upd st.schemas s sch) s = some sch ∧
    lookupS (upd st.validators s sch) s = some sch := by
  refine ⟨?_, lookupS_upd_self _ s sch, lookupS_upd_self _ s sch⟩
  simp [processLine, htype, handleSchema, hstream, hschema, hkp]

/-- Witness for C10 at a concrete schema message lacking `key_properties`. -/
theorem c10_schema_registered_before_failure_witness :
    (lookupS [("type", Json.str "SCHEMA"), ("stream", Json.str "s"),
        ("schema", Json.obj [])] "key_properties" = none) ∧
    (processLine cfg0 (initSt none [])
        [("type", Json.str "SCHEMA"), ("stream", Json.str "s"), ("schema", Json.obj [])] =
      ({ initSt none [] with schemas := upd [] "s" (Json.obj []),
                             validators := upd [] "s" (Json.obj []) },
        some PErr.keyPropertiesRequired) ∧
      lookupS (upd [] "s" (Json.obj [])) "s" = some (Json.obj []) ∧
      lookupS (upd [] "s" (Json.obj [])) "s" = some (Json.obj [])) :=
  ⟨rfl, c10_schema_registered_before_failure cfg0 (initSt none []) _ "s" (Json.obj [])
    rfl rfl rfl rfl⟩

/-- C4 counterexample: a `STATE` message without `value` aborts the run
with a `KeyError` (raised by `o["value"]` in the debug log of line 92),
contrary to the claim that it is tolerated. -/
theorem c4_counterexample :
    persistLines cfg0 (initSt none []) [[("type", Json.str "STATE")]] =
      (initSt none [], some (PErr.keyError "value")) := rfl

/-- C4 (amended): a `STATE` message lacking `value` fails the run with a
raw `KeyError` before any state update; the checkpoint is not changed. -/
theorem c4_state_missing_value (cfg : Config) (st : St) (o : Obj)
    (htype : lookupS o "type" = some (Json.str "STATE"))
    (hv : lookupS o "value" = none) :
    processLine cfg st o = (st, some (PErr.keyError "value")) := by
  simp [processLine, htype, handleState, hv]

/-- Witness for the amended C4 at a concrete valueless state message. -/
theorem c4_state_missing_value_witness :
    (lookupS [("type", Json.str "STATE")] "value" = none) ∧
    processLine cfg0 (initSt none []) [("type", Json.str "STATE")] =
      (initSt none [], some (PErr.keyError "value")) :=
  ⟨rfl, c4_state_missing_value cfg0 (initSt none []) _ rfl rfl⟩



theorem handleRecord_state {cfg : Config} {st st' : St} {o : Obj}
    (h : handleRecord cfg st o = (st', none)) : st'.state = Json.null := by
  unfold handleRecord at h
  cases hs : lookupS o "stream" with
  | none => simp [hs] at h
  | some sv =>
    cases sv with
    | str stream =>
      simp only [hs] at h
      cases hsch : lookupS st.schemas stream with
      | none => simp [hsch] at h
      | some sch =>
        simp only [hsch] at h
        cases hval : lookupS st.validators stream with
        | none => simp [hval] at h
        | some vsch =>
          simp only [hval] at h
          cases hrec : lookupS o "record" with
          | none => simp [hrec] at h
          | some r =>
            simp only [hrec] at h
            by_cases hv : cfg.validate vsch r = true
            · rw [if_pos hv] at h
              cases r with
              | obj rkvs =>
                rw [Prod.mk.injEq] at h
                rw [← h.1]
              | null => simp at h
              | bool b => simp at h
              | int n => simp at h
              | str t => simp at h
              | list xs => simp at h
            · rw [if_neg hv] at h; simp at h
    | null => simp [hs] at h
    | bool b => simp [hs] at h
    | int n => simp [hs] at h
    | list xs => simp [hs] at h
    | obj kvs => simp [hs] at h

theorem handleState_state {st st' : St} {o : Obj}
    (h : handleState st o = (st', none)) :
    st'.state = (lookupS o "value").getD Json.null := by
  unfold handleState at h
  cases hv : lookupS o "value" with
  | none => simp [hv] at h
  | some v =>
    simp only [hv] at h
    rw [Prod.mk.injEq] at h
    rw [← h.1]
    simp

theorem handleSchema_state {st st' : St} {o : Obj}
    (h : handleSchema st o = (st', none)) : st'.state = st.state := by
  unfold handleSchema at h
  cases hs : lookupS o "stream" with
  | none => simp [hs] at h
  | some sv =>
    cases sv with
    | str stream =>
      simp only [hs] at h
      cases hsch : lookupS o "schema" with
      | none => simp [hsch] at h
      | some sch =>
        simp only [hsch] at h
        cases hkp : lookupS o "key_properties" with
        | none => simp [hkp] at h
        | some kp =>
          simp only [hkp] at h
          rw [Prod.mk.injEq] at h
          rw [← h.1]
    | null => simp [hs] at h
    | bool b => simp [hs] at h
    | int n => simp [hs] at h
    | list xs => simp [hs] at h
    | obj kvs => simp [hs] at h

theorem state_after_processLine {cfg : Config} {st st' : St} {o : Obj}
    (h : processLine cfg st o = (st', none)) :
    st'.state = if isRecordMsg o then Json.null
      else if isStateMsg o then (lookupS o "value").getD Json.null
      else st.state := by
  unfold processLine at h
  split at h
  · rw [Prod.mk.injEq] at h
    exact absurd h.2 (by simp)
  case _ heq => simp [isRecordMsg, heq, handleRecord_state h]
  case _ heq =>
    have hns : isRecordMsg o = false := by simp [isRecordMsg, heq]
    simp [hns, isStateMsg, heq, handleState_state h]
  case _ heq =>
    have h1 : isRecordMsg o = false := by simp [isRecordMsg, heq]
    have h2 : isStateMsg o = false := by simp [isStateMsg, heq]
    simp [h1, h2, handleSchema_state h]
  · rw [Prod.mk.injEq] at h
    exact absurd h.2 (by simp)

theorem checkpointFrom_cons (s0 : Json) (o : Obj) (rest : List Obj) :
    checkpointFrom s0 (o :: rest) =
      checkpointFrom
        (if isRecordMsg o then Json.null
         else if isStateMsg o then (lookupS o "value").getD Json.null
         else s0) rest := by
  unfold checkpointFrom
  rw [List.reverse_cons, List.find?_append]
  cases hf : rest.reverse.find? (fun o => isRecordMsg o || isStateMsg o) with
  | some p => simp [hf]
  | none =>
    simp only [hf, Option.none_orElse]
    cases hro : isRecordMsg o <;> cases hso : isStateMsg o <;>
      simp [List.find?, hro, hso]

theorem persistLines_state (cfg : Config) :
    ∀ (msgs : List Obj) (st st' : St),
      persistLines cfg st msgs = (st', none) →
      st'.state = checkpointFrom st.state msgs := by
  intro msgs
  induction msgs with
  | nil =>
    intro st st' h
    simp only [persistLines] at h
    rw [Prod.mk.injEq] at h
    rw [← h.1]
    simp [checkpointFrom]
  | cons o rest ih =>
    intro st st' h
    simp only [persistLines] at h
    split at h
    · rw [Prod.mk.injEq] at h
      exact absurd h.2 (by simp)
    case _ st1 heq =>
      rw [checkpointFrom_cons, ← state_after_processLine heq]
      exact ih st1 st' h

/-- C3: when the whole input is processed without error, `persist_lines`
returns the checkpoint carried by the most recent `STATE` message with no
`RECORD` after it, and null (Python `None`) when there is no such `STATE`
message — the in-flight checkpoint is reset to null right after every
successfully persisted `RECORD` (line 90) and the final value is returned
at line 107. -/
theorem c3_final_checkpoint (cfg : Config) (fn : Option String)
    (fs : List (String × String)) (msgs : List Obj) (st' : St)
    (h : persistLines cfg (initSt fn fs) msgs = (st', none)) :
    st'.state = finalCheckpoint msgs := by
  have hmain := persistLines_state cfg msgs (initSt fn fs) st' h
  simpa [finalCheckpoint, initSt] using hmain

/-- Witness for C3: `SCHEMA, RECORD, STATE(5)` ends with checkpoint `5`,
and `SCHEMA, STATE(5), RECORD` ends with checkpoint null. -/
theorem c3_final_checkpoint_witness :
    ((persistLines cfg0 (initSt none [])
        [schemaMsg "s", recordMsg "s" [("a", Json.int 1)], stateMsg (Json.int 5)]).1.state
      = finalCheckpoint
          [schemaMsg "s", recordMsg "s" [("a", Json.int 1)], stateMsg (Json.int 5)]) ∧
    ((persistLines cfg0 (initSt none [])
        [schemaMsg "s", stateMsg (Json.int 5), recordMsg "s" [("a", Json.int 1)]]).1.state
      = finalCheckpoint
          [schemaMsg "s", stateMsg (Json.int 5), recordMsg "s" [("a", Json.int 1)]]) :=
  ⟨c3_final_checkpoint cfg0 none [] _ _ rfl, c3_final_checkpoint cfg0 none [] _ _ rfl⟩



/-- C1 (code bug): with no output-file override, streams do NOT each get
their own `<S>.csv`: the first `RECORD` permanently reassigns the
`filename` local (lines 60-63), so the second stream's row lands in the
first stream's file and `b.csv` is never created. -/
theorem c1_rows_share_first_streams_file :
    (persistLines cfg0 (initSt none [])
        [schemaMsg "a", schemaMsg "b",
         recordMsg "a" [("x", Json.int 1)], recordMsg "b" [("x", Json.int 2)]]).2 = none ∧
    lookupS (persistLines cfg0 (initSt none [])
        [schemaMsg "a", schemaMsg "b",
         recordMsg "a" [("x", Json.int 1)], recordMsg "b" [("x", Json.int 2)]]).1.fs "a.csv"
      = some "x\r\n1\r\n2\r\n" ∧
    lookupS (persistLines cfg0 (initSt none [])
        [schemaMsg "a", schemaMsg "b",
         recordMsg "a" [("x", Json.int 1)], recordMsg "b" [("x", Json.int 2)]]).1.fs "b.csv"
      = none := by
  refine ⟨rfl, ?_, ?_⟩ <;>
    (simp only [persistLines, processLine, handleRecord, handleState, handleSchema,
      schemaMsg, recordMsg, cfg0, initSt, lookupS, upd, keysOf, dictStep, dictOfItems,
      flatten, flattenItems, fileIsEmpty, resolveFilename, csvRow, csvField, rowCells,
      csvFirstRow, csvScan, translateNewlines, translateNL, pyStr, pyRepr, joinKey]
     decide)

/-- C2 counterexample: over a fresh file, `SCHEMA s; RECORD s {a:1};
RECORD s {a:2,b:3}` ends with the header for `s` re-derived to `[a, b]`
(not the established `[a]`) and the second row written as `2,3` (the
extra field `b` written, not dropped) instead of `2`. -/
theorem c2_counterexample :
    lookupS (persistLines cfg0 (initSt none [])
        [schemaMsg "s", recordMsg "s" [("a", Json.int 1)],
         recordMsg "s" [("a", Json.int 2), ("b", Json.int 3)]]).1.fs "s.csv"
      = some "a\r\n1\r\n2,3\r\n" ∧
    lookupS (persistLines cfg0 (initSt none [])
        [schemaMsg "s", recordMsg "s" [("a", Json.int 1)],
         recordMsg "s" [("a", Json.int 2), ("b", Json.int 3)]]).1.headers "s"
      = some ["a", "b"] ∧
    (["a", "b"] : List String) ≠ ["a"] ∧
    ("a\r\n1\r\n2,3\r\n" : String) ≠ "a\r\n1\r\n2\r\n" := by
  refine ⟨?_, ?_, by decide, by decide⟩ <;>
    (simp only [persistLines, processLine, handleRecord, handleState, handleSchema,
      schemaMsg, recordMsg, cfg0, initSt, lookupS, upd, keysOf, dictStep, dictOfItems,
      flatten, flattenItems, fileIsEmpty, resolveFilename, csvRow, csvField, rowCells,
      csvFirstRow, csvScan, translateNewlines, translateNL, pyStr, pyRepr, joinKey]
     decide)

/-- C2 (amended): once a header is established for stream `s`, a later
`RECORD` for `s` does NOT keep it: the else branch of lines 69-77
re-derives the header from the new record's own flattened field names,
and the row is written against those names (extra fields written, the
established column list discarded). -/
theorem c2_amended_header_rederived (cfg : Config) (st : St) (o : Obj)
    (s f : String) (H : List String) (sch vsch : Json) (rkvs : Obj)
    (htype : lookupS o "type" = some (Json.str "RECORD"))
    (hstream : lookupS o "stream" = some (Json.str s))
    (hsch : lookupS st.schemas s = some sch)
    (hval : lookupS st.validators s = some vsch)
    (hrec : lookupS o "record" = some (Json.obj rkvs))
    (hok : cfg.validate vsch (Json.obj rkvs) = true)
    (hfn : resolveFilename st.filename s = f)
    (hH : lookupS st.headers s = some H)
    (hne : fileIsEmpty st.fs f = false) :
    processLine cfg st o =
      ({ st with filename := some f,
                 state := Json.null,
                 headers := upd st.headers s (keysOf (flatten rkvs)),
                 fs := upd st.fs f (((lookupS st.fs f).getD "") ++
                   csvRow cfg.delimiter cfg.quotechar
                     (rowCells (flatten rkvs) (keysOf (flatten rkvs)))) },
        none) := by
  unfold processLine
  simp only [htype]
  unfold handleRecord
  simp only [hstream, hsch, hval, hrec]
  rw [if_pos hok]
  simp [hfn, hH, hne]

/-- Witness for the amended C2: header `[a]` is established, the next
record has fields `a, b`; the header becomes `[a, b]` and the appended
row is `2,3`. -/
theorem c2_amended_header_rederived_witness :
    (lookupS (stMid "s" ["a"] "s.csv" "a\r\n1\r\n").headers "s" = some ["a"] ∧
      fileIsEmpty (stMid "s" ["a"] "s.csv" "a\r\n1\r\n").fs "s.csv" = false) ∧
    processLine cfg0 (stMid "s" ["a"] "s.csv" "a\r\n1\r\n")
        (recordMsg "s" [("a", Json.int 2), ("b", Json.int 3)]) =
      ({ stMid "s" ["a"] "s.csv" "a\r\n1\r\n" with
           filename := some "s.csv",
           state := Json.null,
           headers := upd (stMid "s" ["a"] "s.csv" "a\r\n1\r\n").headers "s"
             (keysOf (flatten [("a", Json.int 2), ("b", Json.int 3)])),
           fs := upd (stMid "s" ["a"] "s.csv" "a\r\n1\r\n").fs "s.csv"
             (((lookupS (stMid "s" ["a"] "s.csv" "a\r\n1\r\n").fs "s.csv").getD "") ++
               csvRow cfg0.delimiter cfg0.quotechar
                 (rowCells (flatten [("a", Json.int 2), ("b", Json.int 3)])
                   (keysOf (flatten [("a", Json.int 2), ("b", Json.int 3)])))) },
        none) :=
  ⟨⟨rfl, rfl⟩,
    c2_amended_header_rederived cfg0 (stMid "s" ["a"] "s.csv" "a\r\n1\r\n")
      (recordMsg "s" [("a", Json.int 2), ("b", Json.int 3)]) "s" "s.csv" ["a"]
      (Json.obj []) (Json.obj []) [("a", Json.int 2), ("b", Json.int 3)]
      rfl rfl rfl rfl rfl rfl rfl rfl rfl⟩

/-- C5 counterexample: appending two records with field `b` to a
pre-existing file whose header line is `h`: the first row is written
against the file header `[h]` (blank cell), but the second is written
against its own field list `[b]` (value `2`), so not every appended row
uses the file's first line; the claim would require content
`h, blank, blank`. -/
theorem c5_counterexample :
    lookupS (persistLines cfg0 (initSt none [("t.csv", "h\r\n")])
        [schemaMsg "t", recordMsg "t" [("b", Json.int 1)],
         recordMsg "t" [("b", Json.int 2)]]).1.fs "t.csv"
      = some "h\r\n\r\n2\r\n" ∧
    lookupS (persistLines cfg0 (initSt none [("t.csv", "h\r\n")])
        [schemaMsg "t", recordMsg "t" [("b", Json.int 1)],
         recordMsg "t" [("b", Json.int 2)]]).1.headers "t"
      = some ["b"] ∧
    ("h\r\n\r\n2\r\n" : String) ≠ "h\r\n\r\n\r\n" ∧
    (["b"] : List String) ≠ ["h"] := by
  refine ⟨?_, ?_, by decide, by decide⟩ <;>
    (simp only [persistLines, processLine, handleRecord, handleState, handleSchema,
      schemaMsg, recordMsg, cfg0, initSt, lookupS, upd, keysOf, dictStep, dictOfItems,
      flatten, flattenItems, fileIsEmpty, resolveFilename, csvRow, csvField, rowCells,
      csvFirstRow, csvScan, translateNewlines, translateNL, pyStr, pyRepr, joinKey]
     decide)

/-- C5 (amended): the FIRST record written for a stream against a
pre-existing non-empty file takes its header verbatim from the file's
first line, parsed delimiter/quote-aware (lines 69-75), even when that
header differs from the record's own field names; the row is aligned to
that header. -/
theorem c5_amended_first_record_uses_file_header (cfg : Config) (st : St)
    (o : Obj) (s f c : String) (sch vsch : Json) (rkvs : Obj)
    (htype : lookupS o "type" = some (Json.str "RECORD"))
    (hstream : lookupS o "stream" = some (Json.str s))
    (hsch : lookupS st.schemas s = some sch)
    (hval : lookupS st.validators s = some vsch)
    (hrec : lookupS o "record" = some (Json.obj rkvs))
    (hok : cfg.validate vsch (Json.obj rkvs) = true)
    (hfn : resolveFilename st.filename s = f)
    (hH : lookupS st.headers s = none)
    (hfile : lookupS st.fs f = some c)
    (hcne : c ≠ "")
    (hfr : csvFirstRow cfg.delimiter cfg.quotechar c ≠ []) :
    processLine cfg st o =
      ({ st with filename := some f,
                 state := Json.null,
                 headers := upd st.headers s (csvFirstRow cfg.delimiter cfg.quotechar c),
                 fs := upd st.fs f (c ++ csvRow cfg.delimiter cfg.quotechar
                   (rowCells (flatten rkvs) (csvFirstRow cfg.delimiter cfg.quotechar c))) },
        none) := by
  have hne : fileIsEmpty st.fs f = false := by simp [fileIsEmpty, hfile, hcne]
  unfold processLine
  simp only [htype]
  unfold handleRecord
  simp only [hstream, hsch, hval, hrec]
  rw [if_pos hok]
  simp [hfn, hH, hne, hfile, hfr]

/-- Witness for the amended C5: the pre-existing file header `h` (parsed
to `[h]`) is reused for a record with field `b`, which is blank-aligned
to it. -/
theorem c5_amended_first_record_uses_file_header_witness :
    (lookupS (stPre "t" "t.csv" "h\r\n").headers "t" = none ∧
      csvFirstRow cfg0.delimiter cfg0.quotechar "h\r\n" = ["h"]) ∧
    processLine cfg0 (stPre "t" "t.csv" "h\r\n") (recordMsg "t" [("b", Json.int 1)]) =
      ({ stPre "t" "t.csv" "h\r\n" with
           filename := some "t.csv",
           state := Json.null,
           headers := upd (stPre "t" "t.csv" "h\r\n").headers "t"
             (csvFirstRow cfg0.delimiter cfg0.quotechar "h\r\n"),
           fs := upd (stPre "t" "t.csv" "h\r\n").fs "t.csv"
             ("h\r\n" ++ csvRow cfg0.delimiter cfg0.quotechar
               (rowCells (flatten [("b", Json.int 1)])
                 (csvFirstRow cfg0.delimiter cfg0.quotechar "h\r\n"))) },
        none) :=
  ⟨⟨rfl, by decide⟩,
    c5_amended_first_record_uses_file_header cfg0 (stPre "t" "t.csv" "h\r\n")
      (recordMsg "t" [("b", Json.int 1)]) "t" "t.csv" "h\r\n"
      (Json.obj []) (Json.obj []) [("b", Json.int 1)]
      rfl rfl rfl rfl rfl rfl rfl rfl rfl (by decide) (by decide)⟩
